import Mathlib

/-!
Shallow embedding of `pymongo/pool.py` (a TCP connection pool with
generation-based invalidation, request affinity and fork detection).

Modelling conventions
---------------------
* A transport (Python `socket.socket`) is identified by a numeric handle
  (`Nat`); opening, closing and probing sockets are environment effects, so
  each operation takes the environment's answers as explicit arguments
  (current `os.getpid()`, `time.time()`, the outcome of each `socket.connect`
  attempt, the answer of the `_closed` readability probe).
* `time.time()` is modelled with `Rat` (sub-second spacing matters for the
  staleness throttle).
* Python `set.pop()` is nondeterministic; the idle set `self.sockets` is
  modelled as a list, `pop` takes the head and `add` conses (live
  `SocketInfo`s carry pairwise distinct transports, so the list is a faithful
  set representation for the properties proved here).
* In-place mutation (`sock_info.close()`, `sock_info.last_checkout = ...`) is
  modelled by value updates; where Python aliases an object from
  `_tid_to_sock`, the model writes the updated value back into the map, which
  yields the same observable map contents.  Operations additionally return
  the list of `SocketInfo`s that got closed during the call (Python closes
  them in place and drops the references).
* Exceptions are modelled with `Except`.
-/

namespace PyPool

/-- Outcome of one `getaddrinfo` candidate inside `create_connection`: the
environment either lets `socket.connect(sa)` succeed (yielding a fresh
transport handle) or raises a `socket.error` (payload abstracted to a code). -/
inductive AttemptResult where
  | success (sock : Nat)
  | failure (err : Nat)
deriving DecidableEq

/-- The two exception kinds raised by `pool.py`: `socketError` models Python's
raw transport-level `socket.error`; `connectionFailure` models
`pymongo.errors.ConnectionFailure`, the pool's distinguished connection-error
type (imported at the top of the file and raised only on SSL-handshake
failure). -/
inductive PoolError where
  | socketError (err : Nat)
  | connectionFailure (err : Nat)
deriving DecidableEq

/-- Whether an error is the distinguished `ConnectionFailure` type. -/
def PoolError.isConnectionFailure : PoolError → Bool
  | PoolError.connectionFailure _ => true
  | PoolError.socketError _ => false

/-- `_closed(sock)`: `select([sock], [], [], 0)` either raises (any exception
means `True`) or returns the readable list `rd`; result is `len(rd) > 0`.
The environment supplies `selectRaises` and `rdLen`. -/
def closedProbe (selectRaises : Bool) (rdLen : Nat) : Bool :=
  if selectRaises then true else decide (rdLen > 0)

/-- `SocketInfo.__init__`: a socket with metadata.  `sock` is the transport
handle, `pool_id` is the pool's generation at creation time. -/
structure SocketInfo where
  sock : Nat
  authset : List Nat
  closed : Bool
  last_checkout : Rat
  pool_id : Nat
deriving DecidableEq

/-- `SocketInfo(sock, pool_id)` constructed at time `now`
(`self.last_checkout = time.time()`). -/
def SocketInfo.mkNew (sock : Nat) (pool_id : Nat) (now : Rat) : SocketInfo :=
  { sock := sock, authset := [], closed := false,
    last_checkout := now, pool_id := pool_id }

/-- `SocketInfo.close`: sets the closed flag; the OS-level `sock.close()` is
an external effect. -/
def SocketInfo.close (s : SocketInfo) : SocketInfo :=
  { s with closed := true }

/-- `SocketInfo.__eq__(other)` compares against an arbitrary Python value:
`hasattr(other, 'sock') and self.sock == other.sock`.  `PyVal` covers the
values that reach this comparison in `pool.py`: `None` (`NO_REQUEST`),
an int (`NO_SOCKET_YET = -1`) and real `SocketInfo`s. -/
inductive PyVal where
  | pyNone
  | pyInt (n : Int)
  | pySock (s : SocketInfo)
deriving DecidableEq

/-- `NO_REQUEST = None`. -/
def NO_REQUEST : PyVal := PyVal.pyNone

/-- `NO_SOCKET_YET = -1`. -/
def NO_SOCKET_YET : PyVal := PyVal.pyInt (-1)

/-- `hasattr(v, 'sock')`: only `SocketInfo` instances carry a `sock`
attribute among the values reaching `SocketInfo.__eq__`. -/
def hasSockAttr : PyVal → Bool
  | PyVal.pySock _ => true
  | PyVal.pyNone => false
  | PyVal.pyInt _ => false

/-- `SocketInfo.__eq__`: `hasattr(other, 'sock') and self.sock == other.sock`. -/
def sockinfoEq (s : SocketInfo) (other : PyVal) : Bool :=
  match other with
  | PyVal.pySock s2 => hasSockAttr (PyVal.pySock s2) && s.sock == s2.sock
  | v => hasSockAttr v && false

/-- Python `==` between two request-state values (CPython rich comparison:
identity shortcut, then `SocketInfo.__eq__` when either side is a
`SocketInfo`, default type-based comparison otherwise). -/
def pyEq : PyVal → PyVal → Bool
  | PyVal.pySock a, b => sockinfoEq a b
  | a, PyVal.pySock b => sockinfoEq b a
  | PyVal.pyNone, PyVal.pyNone => true
  | PyVal.pyInt a, PyVal.pyInt b => a == b
  | PyVal.pyNone, PyVal.pyInt _ => false
  | PyVal.pyInt _, PyVal.pyNone => false

/-- The membership test `v in (NO_REQUEST, NO_SOCKET_YET)` (tuple
`__contains__` compares each item with `==`). -/
def inSentinels (v : PyVal) : Bool :=
  pyEq NO_REQUEST v || pyEq NO_SOCKET_YET v

/-- Per-context request state, the three shapes a `_tid_to_sock` entry can
take: absent (`NO_REQUEST`), reserved (`NO_SOCKET_YET = -1`), or a bound
`SocketInfo`. -/
inductive ReqState where
  | noRequest
  | noSocketYet
  | bound (s : SocketInfo)
deriving DecidableEq

/-- `BasePool` state: the idle set `self.sockets`, the generation counter
`self.pool_id`, the stored `self.pid`, the constructor configuration, and the
`self._tid_to_sock` map (association list keyed by thread ident). -/
structure PoolState where
  sockets : List SocketInfo
  pool_id : Nat
  pid : Nat
  pair : Nat × Nat
  max_size : Nat
  net_timeout : Rat
  conn_timeout : Rat
  use_ssl : Bool
  tid_to_sock : List (Nat × ReqState)
deriving DecidableEq

/-- `BasePool.__init__(pair, max_size, net_timeout, conn_timeout, use_ssl)`
in process `ospid`. -/
def mkPool (pair : Nat × Nat) (max_size : Nat) (net_timeout conn_timeout : Rat)
    (use_ssl : Bool) (ospid : Nat) : PoolState :=
  { sockets := [], pool_id := 0, pid := ospid, pair := pair,
    max_size := max_size, net_timeout := net_timeout,
    conn_timeout := conn_timeout, use_ssl := use_ssl, tid_to_sock := [] }

/-- `_get_request_state`: `self._tid_to_sock.get(tid, NO_REQUEST)`. -/
def PoolState.getRequestState (p : PoolState) (tid : Nat) : ReqState :=
  match p.tid_to_sock.lookup tid with
  | some r => r
  | none => ReqState.noRequest

/-- `_set_request_state`: on `NO_REQUEST` pop the entry, otherwise store the
new state under `tid` (dict update; the association list drops any older
entry for `tid`).  The `_refs` death-watch bookkeeping is an external
liveness concern and carries no pool-visible state beyond the entry itself. -/
def PoolState.setRequestState (p : PoolState) (tid : Nat) (r : ReqState) :
    PoolState :=
  match r with
  | ReqState.noRequest =>
      { p with tid_to_sock := p.tid_to_sock.filter (fun e => e.1 != tid) }
  | st =>
      { p with tid_to_sock :=
          (tid, st) :: p.tid_to_sock.filter (fun e => e.1 != tid) }

/-- `BasePool.reset` called from context `tid` in process `ospid`
(`os.getpid() = ospid`).  Returns the new state and the list of connections
that were closed: the calling context's bound request socket (if any)
followed by every member of the swapped-out idle set. -/
def PoolState.reset (p : PoolState) (tid : Nat) (ospid : Nat) :
    PoolState × List SocketInfo :=
  let p1 := { p with pool_id := p.pool_id + 1 }
  let request_state := p1.getRequestState tid
  let p2 := { p1 with pid := ospid }
  let closedreq : List SocketInfo :=
    match request_state with
    | ReqState.bound s => [s.close]
    | ReqState.noRequest => []
    | ReqState.noSocketYet => []
  let idle := p2.sockets
  let p3 := { p2 with sockets := [] }
  let p4 :=
    match request_state with
    | ReqState.noRequest => p3
    | ReqState.noSocketYet => p3.setRequestState tid ReqState.noSocketYet
    | ReqState.bound _ => p3.setRequestState tid ReqState.noSocketYet
  (p4, closedreq ++ idle.map SocketInfo.close)

/-- `create_connection` loop over the `getaddrinfo` results: try each
candidate, remembering the last `socket.error`; on success return the
connected transport; after exhausting the list re-raise the last error, or
`socket.error('getaddrinfo failed')` (code 0) if there was no candidate. -/
def createConnectionLoop : List AttemptResult → Option Nat → Except PoolError Nat
  | [], none => Except.error (PoolError.socketError 0)
  | [], some e => Except.error (PoolError.socketError e)
  | AttemptResult.success s :: _, _ => Except.ok s
  | AttemptResult.failure e :: rest, _ => createConnectionLoop rest (some e)

/-- `BasePool.create_connection(pair)`: the address-family selection and
`getaddrinfo` are environment concerns, summarised by the list of per-address
attempt outcomes. -/
def create_connection (attempts : List AttemptResult) : Except PoolError Nat :=
  createConnectionLoop attempts none

/-- Environment inputs to `BasePool.connect`: the connection-attempt outcomes
and whether `ssl.wrap_socket` succeeds. -/
structure ConnectEnv where
  attempts : List AttemptResult
  ssl_ok : Bool
deriving DecidableEq

/-- `BasePool.connect(pair)` at time `now`: `create_connection`, then (when
`use_ssl`) the SSL wrap — whose failure closes the socket and raises
`ConnectionFailure` (code 1) — then `settimeout(net_timeout)` (external
effect) and `SocketInfo(sock, self.pool_id)`. -/
def PoolState.connect (p : PoolState) (env : ConnectEnv) (now : Rat) :
    Except PoolError SocketInfo :=
  match create_connection env.attempts with
  | Except.error e => Except.error e
  | Except.ok sock =>
      if p.use_ssl && !env.ssl_ok then
        Except.error (PoolError.connectionFailure 1)
      else
        Except.ok (SocketInfo.mkNew sock p.pool_id now)

/-- `_return_socket`: cache the socket if `len(self.sockets) < self.max_size`,
close it otherwise. -/
def PoolState.return_socket (p : PoolState) (s : SocketInfo) :
    PoolState × List SocketInfo :=
  if p.sockets.length < p.max_size then
    ({ p with sockets := s :: p.sockets }, [])
  else
    (p, [s.close])

/-- `end_request`: read the request state, clear it to `NO_REQUEST`, and if
it held a bound socket, `_return_socket` it.  (Note: no pid check here.) -/
def PoolState.end_request (p : PoolState) (tid : Nat) :
    PoolState × List SocketInfo :=
  let sock_info := p.getRequestState tid
  let p1 := p.setRequestState tid ReqState.noRequest
  match sock_info with
  | ReqState.bound s => p1.return_socket s
  | ReqState.noRequest => (p1, [])
  | ReqState.noSocketYet => (p1, [])

/-- The comparison `sock_info != self._get_request_state()` in
`maybe_return_socket` distinguishes a real connection from the sentinels and
from a differently-transported bound connection (identity / `sock`-equality;
live `SocketInfo`s carry distinct transports). -/
def sockEqState (s : SocketInfo) (r : ReqState) : Bool :=
  match r with
  | ReqState.bound s2 => s.sock == s2.sock
  | ReqState.noRequest => false
  | ReqState.noSocketYet => false

/-- `maybe_return_socket(sock_info)` from context `tid` in process `ospid`:
if the pid changed, only reset; otherwise (a real `SocketInfo` is never `in
(NO_REQUEST, NO_SOCKET_YET)`) return unless closed or identical to the
context's request socket. -/
def PoolState.maybe_return_socket (p : PoolState) (tid ospid : Nat)
    (s : SocketInfo) : PoolState × List SocketInfo :=
  if p.pid != ospid then
    p.reset tid ospid
  else
    if s.closed then
      (p, [])
    else
      if sockEqState s (p.getRequestState tid) then
        (p, [])
      else
        p.return_socket s

/-- The replacement tail of `_check`: `try: return self.connect(pair) except
socket.error: self.reset(); raise`.  A `ConnectionFailure` (SSL) propagates
without resetting.  `closed0` carries the connection(s) already closed by
`_check`; `probed` records whether `_closed` was invoked. -/
def PoolState.checkReplace (p : PoolState) (tid ospid : Nat) (now : Rat)
    (env : ConnectEnv) (closed0 : List SocketInfo) (probed : Bool) :
    Except PoolError SocketInfo × PoolState × Bool × List SocketInfo :=
  match p.connect env now with
  | Except.ok s2 => (Except.ok s2, p, probed, closed0)
  | Except.error (PoolError.socketError m) =>
      let r := p.reset tid ospid
      (Except.error (PoolError.socketError m), r.1, probed, closed0 ++ r.2)
  | Except.error (PoolError.connectionFailure m) =>
      (Except.error (PoolError.connectionFailure m), p, probed, closed0)

/-- `_check(sock_info, pair)` at time `now`.  `peerClosed` is the answer the
`_closed` readability probe would give (`closedProbe` of the environment's
select outcome).  Returns (result, new pool state, whether the probe was
invoked, connections closed). -/
def PoolState.check (p : PoolState) (tid ospid : Nat) (s : SocketInfo)
    (now : Rat) (peerClosed : Bool) (env : ConnectEnv) :
    Except PoolError SocketInfo × PoolState × Bool × List SocketInfo :=
  if p.pool_id != s.pool_id then
    p.checkReplace tid ospid now env [s.close] false
  else
    if now - s.last_checkout > 1 then
      if peerClosed then
        p.checkReplace tid ospid now env [s.close] true
      else
        (Except.ok s, p, true, [])
    else
      (Except.ok s, p, false, [])

/-- Tail of `get_socket` on the non-request path: stamp `last_checkout`, and
if the original request state was `NO_SOCKET_YET`, bind the socket to the
request (the binding then aliases the stamped object). -/
def PoolState.getFinish (p : PoolState) (tid : Nat) (req_state : ReqState)
    (si : SocketInfo) (now : Rat) (probed : Bool) (closed : List SocketInfo) :
    Except PoolError SocketInfo × PoolState × Bool × List SocketInfo :=
  let si2 := { si with last_checkout := now }
  let p2 :=
    match req_state with
    | ReqState.noSocketYet => p.setRequestState tid (ReqState.bound si2)
    | ReqState.noRequest => p
    | ReqState.bound _ => p
  (Except.ok si2, p2, probed, closed)

/-- Dataflow after `_check` on a pooled (non-request) socket in `get_socket`:
on success continue with `getFinish`, on failure propagate the exception (the
pool state may have been reset inside `_check`). -/
def handleChecked
    (res : Except PoolError SocketInfo × PoolState × Bool × List SocketInfo)
    (tid : Nat) (req_state : ReqState) (now : Rat)
    (closed0 : List SocketInfo) :
    Except PoolError SocketInfo × PoolState × Bool × List SocketInfo :=
  match res with
  | (Except.ok si, p2, probed, closed1) =>
      p2.getFinish tid req_state si now probed (closed0 ++ closed1)
  | (Except.error e, p2, probed, closed1) =>
      (Except.error e, p2, probed, closed0 ++ closed1)

/-- The non-request arm of `get_socket`: pop a free socket (list head models
the arbitrary `set.pop`) and `_check` it, or `connect` fresh when the idle
set is empty (`KeyError` branch). -/
def PoolState.getNonRequest (p : PoolState) (tid ospid : Nat)
    (req_state : ReqState) (now : Rat) (peerClosed : Bool) (env : ConnectEnv)
    (closed0 : List SocketInfo) :
    Except PoolError SocketInfo × PoolState × Bool × List SocketInfo :=
  match p.sockets with
  | s :: rest =>
      handleChecked
        (({ p with sockets := rest } : PoolState).check tid ospid s now
          peerClosed env) tid req_state now closed0
  | [] =>
      match p.connect env now with
      | Except.ok si => p.getFinish tid req_state si now false closed0
      | Except.error e => (Except.error e, p, false, closed0)

/-- Dataflow after `_check` on the caller's bound request socket: on success
stamp `last_checkout` and write the checked socket back into the binding (in
Python `_set_request_state` runs only when `_check` replaced the socket, but
the binding aliases `checked_sock`, whose `last_checkout` is then mutated, so
the resulting map contents are exactly this); on failure propagate. -/
def handleCheckedBound
    (res : Except PoolError SocketInfo × PoolState × Bool × List SocketInfo)
    (tid : Nat) (now : Rat) (closed0 : List SocketInfo) :
    Except PoolError SocketInfo × PoolState × Bool × List SocketInfo :=
  match res with
  | (Except.ok checked, p1, probed, closed1) =>
      (Except.ok { checked with last_checkout := now },
       p1.setRequestState tid
         (ReqState.bound { checked with last_checkout := now }), probed,
       closed0 ++ closed1)
  | (Except.error e, p1, probed, closed1) =>
      (Except.error e, p1, probed, closed0 ++ closed1)

/-- Body of `get_socket` after the pid check: request-state lookup; on a
bound request socket `_check` it and update the binding; otherwise
pop-or-connect, `_check` pooled sockets, bind when the request was reserved,
stamp and return. -/
def PoolState.getSocketMain (p : PoolState) (tid ospid : Nat) (now : Rat)
    (peerClosed : Bool) (env : ConnectEnv) (closed0 : List SocketInfo) :
    Except PoolError SocketInfo × PoolState × Bool × List SocketInfo :=
  match p.getRequestState tid with
  | ReqState.bound s =>
      handleCheckedBound (p.check tid ospid s now peerClosed env) tid now
        closed0
  | ReqState.noSocketYet =>
      p.getNonRequest tid ospid ReqState.noSocketYet now peerClosed env closed0
  | ReqState.noRequest =>
      p.getNonRequest tid ospid ReqState.noRequest now peerClosed env closed0

/-- `get_socket(pair)` from context `tid` in process `ospid` at time `now`:
the pid check (implicit `reset`) followed by the main body. -/
def PoolState.get_socket (p : PoolState) (tid ospid : Nat) (now : Rat)
    (peerClosed : Bool) (env : ConnectEnv) :
    Except PoolError SocketInfo × PoolState × Bool × List SocketInfo :=
  let fr := if p.pid != ospid then p.reset tid ospid else (p, [])
  fr.1.getSocketMain tid ospid now peerClosed env fr.2

/-- `start_request`: reserve the request (`NO_SOCKET_YET`) when the context
has no state; no-op otherwise; allocates no connection. -/
def PoolState.start_request (p : PoolState) (tid : Nat) : PoolState :=
  match p.getRequestState tid with
  | ReqState.noRequest => p.setRequestState tid ReqState.noSocketYet
  | ReqState.noSocketYet => p
  | ReqState.bound _ => p

/-- `in_request`: `self._get_request_state() != NO_REQUEST`. -/
def PoolState.in_request (p : PoolState) (tid : Nat) : Bool :=
  match p.getRequestState tid with
  | ReqState.noRequest => false
  | ReqState.noSocketYet => true
  | ReqState.bound _ => true

/-- One public pool operation together with its environment inputs, for
stating whole-history invariants. -/
inductive PoolOp where
  | get (tid ospid : Nat) (now : Rat) (peerClosed : Bool) (env : ConnectEnv)
  | startReq (tid : Nat)
  | endReq (tid : Nat)
  | maybeReturn (tid ospid : Nat) (s : SocketInfo)
  | ret (s : SocketInfo)
  | reset (tid ospid : Nat)
deriving DecidableEq

/-- State reached after one operation. -/
def applyOp (p : PoolState) : PoolOp → PoolState
  | PoolOp.get tid ospid now pc env => (p.get_socket tid ospid now pc env).2.1
  | PoolOp.startReq tid => p.start_request tid
  | PoolOp.endReq tid => (p.end_request tid).1
  | PoolOp.maybeReturn tid ospid s => (p.maybe_return_socket tid ospid s).1
  | PoolOp.ret s => (p.return_socket s).1
  | PoolOp.reset tid ospid => (p.reset tid ospid).1

/-- State reached after a sequence of operations. -/
def applyOps (p : PoolState) : List PoolOp → PoolState
  | [] => p
  | op :: rest => applyOps (applyOp p op) rest

/-! ### Helper lemmas about the request-state table -/

theorem lookup_filter_self (l : List (Nat × ReqState)) (tid : Nat) :
    (l.filter (fun e => e.1 != tid)).lookup tid = none := by
  induction l with
  | nil => rfl
  | cons a l ih =>
      rw [List.filter_cons]
      by_cases h : a.1 = tid
      · have hb : (a.1 != tid) = false := by simpa using h
        simp [hb, ih]
      · have hb : (a.1 != tid) = true := by simpa using h
        have hc : (tid == a.1) = false := by simpa using Ne.symm h
        simp [hb, List.lookup, hc, ih]

theorem lookup_filter_other (l : List (Nat × ReqState)) (tid tid2 : Nat)
    (h : tid2 ≠ tid) :
    (l.filter (fun e => e.1 != tid)).lookup tid2 = l.lookup tid2 := by
  induction l with
  | nil => rfl
  | cons a l ih =>
      rw [List.filter_cons]
      by_cases ha : a.1 = tid
      · have hb : (a.1 != tid) = false := by simpa using ha
        have hc : (tid2 == a.1) = false := by
          simpa using fun e => h (e.trans ha)
        simp [hb, List.lookup, hc, ih]
      · have hb : (a.1 != tid) = true := by simpa using ha
        by_cases hd : tid2 = a.1
        · simp [hb, List.lookup, hd]
        · have hc : (tid2 == a.1) = false := by simpa using hd
          simp [hb, List.lookup, hc, ih]

theorem getRequestState_set_self (p : PoolState) (tid : Nat) (r : ReqState) :
    (p.setRequestState tid r).getRequestState tid = r := by
  cases r <;>
    simp [PoolState.setRequestState, PoolState.getRequestState,
      lookup_filter_self, List.lookup]

theorem getRequestState_set_other (p : PoolState) (tid tid2 : Nat)
    (r : ReqState) (h : tid2 ≠ tid) :
    (p.setRequestState tid r).getRequestState tid2 = p.getRequestState tid2 := by
  have hc : (tid2 == tid) = false := by simpa using h
  cases r <;>
    simp [PoolState.setRequestState, PoolState.getRequestState,
      lookup_filter_other _ _ _ h, List.lookup, hc]

theorem setRequestState_fields (p : PoolState) (tid : Nat) (r : ReqState) :
    (p.setRequestState tid r).sockets = p.sockets ∧
    (p.setRequestState tid r).pool_id = p.pool_id ∧
    (p.setRequestState tid r).pid = p.pid ∧
    (p.setRequestState tid r).max_size = p.max_size ∧
    (p.setRequestState tid r).use_ssl = p.use_ssl := by
  cases r <;> simp [PoolState.setRequestState]

/-! ### Characterization of `reset`, `connect` and `_check` -/

/-- What the calling context's request state becomes after `reset`. -/
def resetReqState : ReqState → ReqState
  | ReqState.noRequest => ReqState.noRequest
  | ReqState.noSocketYet => ReqState.noSocketYet
  | ReqState.bound _ => ReqState.noSocketYet

/-- Which connections `reset` closes: the caller's bound request socket (if
any), then the whole swapped-out idle set. -/
def resetClosed (r : ReqState) (idle : List SocketInfo) : List SocketInfo :=
  (match r with
   | ReqState.bound s => [s.close]
   | ReqState.noRequest => []
   | ReqState.noSocketYet => []) ++ idle.map SocketInfo.close

theorem getRequestState_congr {q p : PoolState}
    (h : q.tid_to_sock = p.tid_to_sock) (tid : Nat) :
    q.getRequestState tid = p.getRequestState tid := by
  simp [PoolState.getRequestState, h]

theorem reset_eq (p : PoolState) (tid ospid : Nat) :
    p.reset tid ospid =
      ((match p.getRequestState tid with
        | ReqState.noRequest =>
            { p with pool_id := p.pool_id + 1, pid := ospid, sockets := [] }
        | ReqState.noSocketYet =>
            ({ p with pool_id := p.pool_id + 1, pid := ospid, sockets := [] } : PoolState).setRequestState tid ReqState.noSocketYet
        | ReqState.bound _ =>
            ({ p with pool_id := p.pool_id + 1, pid := ospid, sockets := [] } : PoolState).setRequestState tid ReqState.noSocketYet),
       resetClosed (p.getRequestState tid) p.sockets) := by
  have hs : PoolState.getRequestState
      { p with pool_id := p.pool_id + 1 } tid = p.getRequestState tid := rfl
  cases h : p.getRequestState tid with
  | noRequest => simp only [PoolState.reset, hs, h, resetClosed]
  | noSocketYet => simp only [PoolState.reset, hs, h, resetClosed]
  | bound s => simp only [PoolState.reset, hs, h, resetClosed]

theorem reset_spec (p : PoolState) (tid ospid : Nat) :
    (p.reset tid ospid).1.pool_id = p.pool_id + 1 ∧
    (p.reset tid ospid).1.pid = ospid ∧
    (p.reset tid ospid).1.sockets = [] ∧
    (p.reset tid ospid).1.max_size = p.max_size ∧
    (p.reset tid ospid).1.use_ssl = p.use_ssl ∧
    (p.reset tid ospid).2 = resetClosed (p.getRequestState tid) p.sockets ∧
    (p.reset tid ospid).1.getRequestState tid
      = resetReqState (p.getRequestState tid) ∧
    ∀ tid2, tid2 ≠ tid →
      (p.reset tid ospid).1.getRequestState tid2 = p.getRequestState tid2 := by
  rw [reset_eq]
  cases h : p.getRequestState tid with
  | noRequest =>
      refine ⟨rfl, rfl, rfl, rfl, rfl, rfl, ?_, ?_⟩
      · exact (getRequestState_congr rfl tid).trans h
      · intro tid2 hne
        exact getRequestState_congr rfl tid2
  | noSocketYet =>
      refine ⟨?_, ?_, ?_, ?_, ?_, rfl, ?_, ?_⟩
      · simp [PoolState.setRequestState]
      · simp [PoolState.setRequestState]
      · simp [PoolState.setRequestState]
      · simp [PoolState.setRequestState]
      · simp [PoolState.setRequestState]
      · exact getRequestState_set_self _ tid ReqState.noSocketYet
      · intro tid2 hne
        rw [getRequestState_set_other _ _ _ _ hne]
        exact getRequestState_congr rfl tid2
  | bound s =>
      refine ⟨?_, ?_, ?_, ?_, ?_, rfl, ?_, ?_⟩
      · simp [PoolState.setRequestState]
      · simp [PoolState.setRequestState]
      · simp [PoolState.setRequestState]
      · simp [PoolState.setRequestState]
      · simp [PoolState.setRequestState]
      · exact getRequestState_set_self _ tid ReqState.noSocketYet
      · intro tid2 hne
        rw [getRequestState_set_other _ _ _ _ hne]
        exact getRequestState_congr rfl tid2

/-! ### Characterization of `connect` and `_check` -/

theorem createConnectionLoop_error (attempts : List AttemptResult)
    (acc : Option Nat) (e : PoolError)
    (h : createConnectionLoop attempts acc = Except.error e) :
    ∃ m, e = PoolError.socketError m := by
  induction attempts generalizing acc with
  | nil =>
      cases acc with
      | none =>
          simp [createConnectionLoop] at h
          exact ⟨0, h.symm⟩
      | some m =>
          simp [createConnectionLoop] at h
          exact ⟨m, h.symm⟩
  | cons a rest ih =>
      cases a with
      | success s => simp [createConnectionLoop] at h
      | failure m =>
          simp only [createConnectionLoop] at h
          exact ih (some m) h

theorem connect_propagates_create_error (p : PoolState) (env : ConnectEnv)
    (now : Rat) (e : PoolError)
    (h : create_connection env.attempts = Except.error e) :
    p.connect env now = Except.error e := by
  simp [PoolState.connect, h]

theorem connect_ok_spec (p : PoolState) (env : ConnectEnv) (now : Rat)
    (si : SocketInfo) (h : p.connect env now = Except.ok si) :
    si.pool_id = p.pool_id ∧ si.closed = false ∧ si.last_checkout = now ∧
    ∃ sock, create_connection env.attempts = Except.ok sock ∧ si.sock = sock := by
  unfold PoolState.connect at h
  cases hc : create_connection env.attempts with
  | error e =>
      rw [hc] at h
      exact absurd h (by simp)
  | ok sock =>
      rw [hc] at h
      cases hb : (p.use_ssl && !env.ssl_ok) with
      | true =>
          rw [hb] at h
          exact absurd h (by simp)
      | false =>
          rw [hb] at h
          simp only [Bool.false_eq_true, if_false, Except.ok.injEq] at h
          subst h
          exact ⟨rfl, rfl, rfl, sock, rfl, rfl⟩

theorem checkReplace_probed (p : PoolState) (tid ospid : Nat) (now : Rat)
    (env : ConnectEnv) (cl0 : List SocketInfo) (pr : Bool) :
    (p.checkReplace tid ospid now env cl0 pr).2.2.1 = pr := by
  unfold PoolState.checkReplace
  cases hc : p.connect env now with
  | ok s => simp
  | error e => cases e <;> simp

theorem checkReplace_state (p : PoolState) (tid ospid : Nat) (now : Rat)
    (env : ConnectEnv) (cl0 : List SocketInfo) (pr : Bool) :
    (p.checkReplace tid ospid now env cl0 pr).2.1 = p ∨
    (p.checkReplace tid ospid now env cl0 pr).2.1 = (p.reset tid ospid).1 := by
  unfold PoolState.checkReplace
  cases hc : p.connect env now with
  | ok s => left; simp
  | error e =>
      cases e with
      | socketError m => right; simp
      | connectionFailure m => left; simp

theorem checkReplace_ok (p : PoolState) (tid ospid : Nat) (now : Rat)
    (env : ConnectEnv) (cl0 : List SocketInfo) (pr : Bool) (si : SocketInfo)
    (p2 : PoolState) (pr2 : Bool) (cl : List SocketInfo)
    (h : p.checkReplace tid ospid now env cl0 pr = (Except.ok si, p2, pr2, cl)) :
    p2 = p ∧ pr2 = pr ∧ cl = cl0 ∧ p.connect env now = Except.ok si := by
  unfold PoolState.checkReplace at h
  cases hc : p.connect env now with
  | ok s2 =>
      rw [hc] at h
      injection h with ha hb
      injection hb with hb hcc
      injection hcc with hcc hd
      exact ⟨hb.symm, hcc.symm, hd.symm, ha⟩
  | error e =>
      cases e <;> rw [hc] at h <;> simp at h

theorem checkReplace_sockerr (p : PoolState) (tid ospid : Nat) (now : Rat)
    (env : ConnectEnv) (cl0 : List SocketInfo) (pr : Bool) (m : Nat)
    (h : p.connect env now = Except.error (PoolError.socketError m)) :
    p.checkReplace tid ospid now env cl0 pr
      = (Except.error (PoolError.socketError m), (p.reset tid ospid).1, pr,
         cl0 ++ (p.reset tid ospid).2) := by
  unfold PoolState.checkReplace
  rw [h]

theorem checkReplace_sslerr (p : PoolState) (tid ospid : Nat) (now : Rat)
    (env : ConnectEnv) (cl0 : List SocketInfo) (pr : Bool) (m : Nat)
    (h : p.connect env now = Except.error (PoolError.connectionFailure m)) :
    p.checkReplace tid ospid now env cl0 pr
      = (Except.error (PoolError.connectionFailure m), p, pr, cl0) := by
  unfold PoolState.checkReplace
  rw [h]

theorem check_keep (p : PoolState) (tid ospid : Nat) (s : SocketInfo)
    (now : Rat) (pc : Bool) (env : ConnectEnv)
    (hgen : p.pool_id = s.pool_id)
    (hkeep : ¬(now - s.last_checkout > 1 ∧ pc = true)) :
    p.check tid ospid s now pc env
      = (Except.ok s, p, decide (now - s.last_checkout > 1), []) := by
  unfold PoolState.check
  have hb : (p.pool_id != s.pool_id) = false := by simp [hgen]
  rw [hb]
  by_cases ht : now - s.last_checkout > 1
  · have hpc : pc = false := by
      cases hc : pc with
      | true => exact absurd ⟨ht, hc⟩ hkeep
      | false => rfl
    subst hpc
    simp [ht]
  · simp [ht]

theorem check_probed (p : PoolState) (tid ospid : Nat) (s : SocketInfo)
    (now : Rat) (pc : Bool) (env : ConnectEnv) :
    (p.check tid ospid s now pc env).2.2.1
      = (decide (p.pool_id = s.pool_id) && decide (now - s.last_checkout > 1)) := by
  unfold PoolState.check
  by_cases hgen : p.pool_id = s.pool_id
  · have hb : (p.pool_id != s.pool_id) = false := by simp [hgen]
    rw [hb]
    by_cases ht : now - s.last_checkout > 1
    · cases pc with
      | true => simp [ht, hgen, checkReplace_probed]
      | false => simp [ht, hgen]
    · simp [ht, hgen]
  · have hb : (p.pool_id != s.pool_id) = true := by simp [hgen]
    rw [hb]
    simp [hgen, checkReplace_probed]

theorem check_state_cases (p : PoolState) (tid ospid : Nat) (s : SocketInfo)
    (now : Rat) (pc : Bool) (env : ConnectEnv) :
    (p.check tid ospid s now pc env).2.1 = p ∨
    (p.check tid ospid s now pc env).2.1 = (p.reset tid ospid).1 := by
  unfold PoolState.check
  by_cases hgen : (p.pool_id != s.pool_id) = true
  · rw [if_pos hgen]
    exact checkReplace_state p tid ospid now env [s.close] false
  · rw [if_neg hgen]
    by_cases ht : now - s.last_checkout > 1
    · rw [if_pos ht]
      cases pc with
      | true =>
          rw [if_pos rfl]
          exact checkReplace_state p tid ospid now env [s.close] true
      | false =>
          rw [if_neg (by simp)]
          left
          rfl
    · rw [if_neg ht]
      left
      rfl

theorem check_ok (p : PoolState) (tid ospid : Nat) (s : SocketInfo)
    (now : Rat) (pc : Bool) (env : ConnectEnv) (si : SocketInfo)
    (p2 : PoolState) (pr : Bool) (cl : List SocketInfo)
    (h : p.check tid ospid s now pc env = (Except.ok si, p2, pr, cl)) :
    p2 = p ∧ si.pool_id = p.pool_id ∧
    (si = s ∨
      (si.closed = false ∧ si.last_checkout = now ∧ s.close ∈ cl ∧
       ∃ sock, create_connection env.attempts = Except.ok sock ∧
         si.sock = sock)) := by
  unfold PoolState.check at h
  by_cases hgen : (p.pool_id != s.pool_id) = true
  · rw [if_pos hgen] at h
    obtain ⟨h1, h2, h3, h4⟩ := checkReplace_ok _ _ _ _ _ _ _ _ _ _ _ h
    obtain ⟨g1, g2, g3, sock, g4, g5⟩ := connect_ok_spec _ _ _ _ h4
    refine ⟨h1, g1, Or.inr ⟨g2, g3, ?_, sock, g4, g5⟩⟩
    rw [h3]
    simp
  · have hg2 : p.pool_id = s.pool_id := by simpa using hgen
    rw [if_neg hgen] at h
    by_cases ht : now - s.last_checkout > 1
    · rw [if_pos ht] at h
      cases pc with
      | true =>
          rw [if_pos rfl] at h
          obtain ⟨h1, h2, h3, h4⟩ := checkReplace_ok _ _ _ _ _ _ _ _ _ _ _ h
          obtain ⟨g1, g2, g3, sock, g4, g5⟩ := connect_ok_spec _ _ _ _ h4
          refine ⟨h1, g1, Or.inr ⟨g2, g3, ?_, sock, g4, g5⟩⟩
          rw [h3]
          simp
      | false =>
          simp only [Bool.false_eq_true, if_false, Prod.mk.injEq,
            Except.ok.injEq] at h
          obtain ⟨h1, h2, h3, h4⟩ := h
          exact ⟨h2.symm, by rw [← h1, hg2], Or.inl h1.symm⟩
    · rw [if_neg ht] at h
      simp only [Prod.mk.injEq, Except.ok.injEq] at h
      obtain ⟨h1, h2, h3, h4⟩ := h
      exact ⟨h2.symm, by rw [← h1, hg2], Or.inl h1.symm⟩

/-! ### State evolution of `get_socket` -/

theorem getFinish_state (p : PoolState) (tid : Nat) (rs : ReqState)
    (si : SocketInfo) (now : Rat) (pr : Bool) (cl : List SocketInfo) :
    (p.getFinish tid rs si now pr cl).2.1.sockets = p.sockets ∧
    (p.getFinish tid rs si now pr cl).2.1.max_size = p.max_size ∧
    (p.getFinish tid rs si now pr cl).2.1.pool_id = p.pool_id ∧
    (p.getFinish tid rs si now pr cl).2.1.pid = p.pid := by
  unfold PoolState.getFinish
  cases rs <;> simp [PoolState.setRequestState]

theorem getFinish_result (p : PoolState) (tid : Nat) (rs : ReqState)
    (si : SocketInfo) (now : Rat) (pr : Bool) (cl : List SocketInfo) :
    (p.getFinish tid rs si now pr cl).1
      = Except.ok { si with last_checkout := now } ∧
    (p.getFinish tid rs si now pr cl).2.2.1 = pr ∧
    (p.getFinish tid rs si now pr cl).2.2.2 = cl := by
  unfold PoolState.getFinish
  cases rs <;> simp

theorem getNonRequest_state (p : PoolState) (tid ospid : Nat) (rs : ReqState)
    (now : Rat) (pc : Bool) (env : ConnectEnv) (cl0 : List SocketInfo) :
    (p.getNonRequest tid ospid rs now pc env cl0).2.1.max_size = p.max_size ∧
    (p.getNonRequest tid ospid rs now pc env cl0).2.1.sockets.length
      ≤ p.sockets.length := by
  unfold PoolState.getNonRequest
  cases hs : p.sockets with
  | nil =>
      cases hc : p.connect env now with
      | ok si =>
          have hg := getFinish_state p tid rs si now false cl0
          exact ⟨hg.2.1,
            (congrArg List.length (hg.1.trans hs)).le⟩
      | error e => exact ⟨rfl, (congrArg List.length hs).le⟩
  | cons s rest =>
      have hst := check_state_cases ({ p with sockets := rest } : PoolState)
        tid ospid s now pc env
      rcases hres : ({ p with sockets := rest } : PoolState).check tid ospid
          s now pc env with ⟨r, q, b, c⟩
      rw [hres] at hst
      simp only [] at hst
      have hq : q.max_size = p.max_size ∧ q.sockets.length ≤ rest.length := by
        rcases hst with hst | hst
        · rw [hst]
          exact ⟨rfl, Nat.le_refl _⟩
        · rw [hst]
          have hr := reset_spec ({ p with sockets := rest } : PoolState)
            tid ospid
          rw [hr.2.2.1, hr.2.2.2.1]
          exact ⟨rfl, Nat.zero_le _⟩
      simp only []
      rw [hres]
      cases r with
      | ok si =>
          have hg := getFinish_state q tid rs si now b (cl0 ++ c)
          exact ⟨hg.2.1.trans hq.1,
            (congrArg List.length hg.1).trans_le (Nat.le_succ_of_le hq.2)⟩
      | error e =>
          exact ⟨hq.1, Nat.le_succ_of_le hq.2⟩

theorem getSocketMain_state (p : PoolState) (tid ospid : Nat) (now : Rat)
    (pc : Bool) (env : ConnectEnv) (cl0 : List SocketInfo) :
    (p.getSocketMain tid ospid now pc env cl0).2.1.max_size = p.max_size ∧
    (p.getSocketMain tid ospid now pc env cl0).2.1.sockets.length
      ≤ p.sockets.length := by
  unfold PoolState.getSocketMain
  cases hb : p.getRequestState tid with
  | noRequest => exact getNonRequest_state p tid ospid ReqState.noRequest now pc env cl0
  | noSocketYet => exact getNonRequest_state p tid ospid ReqState.noSocketYet now pc env cl0
  | bound s =>
      have hst := check_state_cases p tid ospid s now pc env
      rcases hres : p.check tid ospid s now pc env with ⟨r, q, b, c⟩
      rw [hres] at hst
      simp only [] at hst
      have hq : q.max_size = p.max_size ∧ q.sockets.length ≤ p.sockets.length := by
        rcases hst with hst | hst
        · rw [hst]
          exact ⟨rfl, Nat.le_refl _⟩
        · rw [hst]
          have hr := reset_spec p tid ospid
          rw [hr.2.2.1, hr.2.2.2.1]
          exact ⟨rfl, Nat.zero_le _⟩
      simp only []
      rw [hres]
      cases r with
      | ok checked =>
          have hf := setRequestState_fields q tid
            (ReqState.bound { checked with last_checkout := now })
          exact ⟨hf.2.2.2.1.trans hq.1,
            (congrArg List.length hf.1).trans_le hq.2⟩
      | error e => exact hq

theorem get_socket_state (p : PoolState) (tid ospid : Nat) (now : Rat)
    (pc : Bool) (env : ConnectEnv) :
    (p.get_socket tid ospid now pc env).2.1.max_size = p.max_size ∧
    (p.get_socket tid ospid now pc env).2.1.sockets.length
      ≤ p.sockets.length := by
  unfold PoolState.get_socket
  by_cases hf : (p.pid != ospid) = true
  · rw [if_pos hf]
    have hr := reset_spec p tid ospid
    have hm := getSocketMain_state (p.reset tid ospid).1 tid ospid now pc env
      (p.reset tid ospid).2
    refine ⟨hm.1.trans hr.2.2.2.1, ?_⟩
    refine le_trans hm.2 ?_
    rw [hr.2.2.1]
    exact Nat.zero_le _
  · rw [if_neg hf]
    exact getSocketMain_state p tid ospid now pc env []
/-! ### Result characterization of `get_socket` -/

theorem getFinish_eq (p : PoolState) (tid : Nat) (rs : ReqState)
    (si : SocketInfo) (now : Rat) (pr : Bool) (cl : List SocketInfo) :
    p.getFinish tid rs si now pr cl
      = (Except.ok { si with last_checkout := now },
         (if rs = ReqState.noSocketYet then
            p.setRequestState tid
              (ReqState.bound { si with last_checkout := now })
          else p),
         pr, cl) := by
  unfold PoolState.getFinish
  cases rs <;> simp

theorem getNonRequest_ok (p : PoolState) (tid ospid : Nat) (rs : ReqState)
    (now : Rat) (pc : Bool) (env : ConnectEnv) (cl0 : List SocketInfo)
    (si : SocketInfo) (p2 : PoolState) (pr : Bool) (cl : List SocketInfo)
    (h : p.getNonRequest tid ospid rs now pc env cl0
          = (Except.ok si, p2, pr, cl)) :
    si.pool_id = p2.pool_id ∧ si.last_checkout = now ∧
    (rs = ReqState.noSocketYet →
      p2.getRequestState tid = ReqState.bound si) := by
  unfold PoolState.getNonRequest at h
  cases hs : p.sockets with
  | nil =>
      rw [hs] at h
      simp only [] at h
      cases hc : p.connect env now with
      | error e =>
          rw [hc] at h
          simp at h
      | ok si0 =>
          rw [hc] at h
          simp only [] at h
          rw [getFinish_eq] at h
          injection h with h1 h2
          injection h2 with h2 h3
          injection h3 with h3 h4
          injection h1 with h1
          obtain ⟨g1, g2, g3, g4⟩ := connect_ok_spec p env now si0 hc
          subst h1
          by_cases hrs : rs = ReqState.noSocketYet
          · rw [if_pos hrs] at h2
            refine ⟨?_, rfl, fun hz => ?_⟩
            · rw [← h2]
              simp [PoolState.setRequestState, g1]
            · rw [← h2]
              exact getRequestState_set_self _ _ _
          · rw [if_neg hrs] at h2
            refine ⟨?_, rfl, fun hz => absurd hz hrs⟩
            rw [← h2]
            exact g1
  | cons s rest =>
      rw [hs] at h
      simp only [] at h
      rcases hres : ({ p with sockets := rest } : PoolState).check tid ospid
          s now pc env with ⟨r, q, b, c⟩
      rw [hres] at h
      cases r with
      | error e => simp [handleChecked] at h
      | ok si0 =>
          simp only [handleChecked] at h
          rw [getFinish_eq] at h
          injection h with h1 h2
          injection h2 with h2 h3
          injection h3 with h3 h4
          injection h1 with h1
          obtain ⟨g1, g2, g3⟩ :=
            check_ok _ tid ospid s now pc env si0 q b c hres
          have hqid : q.pool_id = p.pool_id := by rw [g1]
          subst h1
          by_cases hrs : rs = ReqState.noSocketYet
          · rw [if_pos hrs] at h2
            refine ⟨?_, rfl, fun hz => ?_⟩
            · rw [← h2]
              simp [PoolState.setRequestState, g2, hqid]
            · rw [← h2]
              exact getRequestState_set_self _ _ _
          · rw [if_neg hrs] at h2
            refine ⟨?_, rfl, fun hz => absurd hz hrs⟩
            rw [← h2]
            rw [g2, hqid]

theorem getSocketMain_ok (p : PoolState) (tid ospid : Nat) (now : Rat)
    (pc : Bool) (env : ConnectEnv) (cl0 : List SocketInfo) (si : SocketInfo)
    (p2 : PoolState) (pr : Bool) (cl : List SocketInfo)
    (h : p.getSocketMain tid ospid now pc env cl0
          = (Except.ok si, p2, pr, cl)) :
    si.pool_id = p2.pool_id ∧ si.last_checkout = now ∧
    (p.getRequestState tid ≠ ReqState.noRequest →
      p2.getRequestState tid = ReqState.bound si) := by
  unfold PoolState.getSocketMain at h
  cases hb : p.getRequestState tid with
  | noRequest =>
      rw [hb] at h
      simp only [] at h
      have := getNonRequest_ok p tid ospid ReqState.noRequest now pc env cl0
        si p2 pr cl h
      exact ⟨this.1, this.2.1, fun hz => absurd rfl hz⟩
  | noSocketYet =>
      rw [hb] at h
      simp only [] at h
      have := getNonRequest_ok p tid ospid ReqState.noSocketYet now pc env cl0
        si p2 pr cl h
      exact ⟨this.1, this.2.1, fun hz => this.2.2 rfl⟩
  | bound s =>
      rw [hb] at h
      simp only [] at h
      rcases hres : p.check tid ospid s now pc env with ⟨r, q, b, c⟩
      rw [hres] at h
      cases r with
      | error e => simp [handleCheckedBound] at h
      | ok checked =>
          simp only [handleCheckedBound] at h
          injection h with h1 h2
          injection h2 with h2 h3
          injection h3 with h3 h4
          injection h1 with h1
          obtain ⟨g1, g2, g3⟩ :=
            check_ok p tid ospid s now pc env checked q b c hres
          subst h1
          refine ⟨?_, rfl, fun hz => ?_⟩
          · rw [← h2]
            simp [PoolState.setRequestState, g2, g1]
          · rw [← h2]
            exact getRequestState_set_self _ _ _

theorem get_socket_nofork (p : PoolState) (tid ospid : Nat) (now : Rat)
    (pc : Bool) (env : ConnectEnv) (h : p.pid = ospid) :
    p.get_socket tid ospid now pc env
      = p.getSocketMain tid ospid now pc env [] := by
  unfold PoolState.get_socket
  rw [if_neg (by simp [h])]

theorem get_socket_fork (p : PoolState) (tid ospid : Nat) (now : Rat)
    (pc : Bool) (env : ConnectEnv) (h : p.pid ≠ ospid) :
    p.get_socket tid ospid now pc env
      = (p.reset tid ospid).1.getSocketMain tid ospid now pc env
          (p.reset tid ospid).2 := by
  unfold PoolState.get_socket
  rw [if_pos (by simp [h])]

theorem get_socket_ok (p : PoolState) (tid ospid : Nat) (now : Rat)
    (pc : Bool) (env : ConnectEnv) (si : SocketInfo) (p2 : PoolState)
    (pr : Bool) (cl : List SocketInfo)
    (h : p.get_socket tid ospid now pc env = (Except.ok si, p2, pr, cl)) :
    si.pool_id = p2.pool_id ∧ si.last_checkout = now := by
  unfold PoolState.get_socket at h
  by_cases hf : (p.pid != ospid) = true
  · rw [if_pos hf] at h
    have := getSocketMain_ok _ tid ospid now pc env _ si p2 pr cl h
    exact ⟨this.1, this.2.1⟩
  · rw [if_neg hf] at h
    have := getSocketMain_ok _ tid ospid now pc env _ si p2 pr cl h
    exact ⟨this.1, this.2.1⟩
/-! ### Capacity and per-operation helper lemmas -/

theorem return_socket_capacity (p : PoolState) (s : SocketInfo)
    (h : p.sockets.length ≤ p.max_size) :
    (p.return_socket s).1.max_size = p.max_size ∧
    (p.return_socket s).1.sockets.length ≤ p.max_size := by
  unfold PoolState.return_socket
  by_cases hl : p.sockets.length < p.max_size
  · rw [if_pos hl]
    exact ⟨rfl, Nat.succ_le_of_lt hl⟩
  · rw [if_neg hl]
    exact ⟨rfl, h⟩

theorem end_request_capacity (p : PoolState) (tid : Nat)
    (h : p.sockets.length ≤ p.max_size) :
    (p.end_request tid).1.max_size = p.max_size ∧
    (p.end_request tid).1.sockets.length ≤ p.max_size := by
  unfold PoolState.end_request
  have hf := setRequestState_fields p tid ReqState.noRequest
  cases hb : p.getRequestState tid with
  | bound s =>
      simp only []
      have hcap := return_socket_capacity (p.setRequestState tid ReqState.noRequest) s
        (by rw [hf.1, hf.2.2.2.1]; exact h)
      exact ⟨hcap.1.trans hf.2.2.2.1, le_of_le_of_eq hcap.2 hf.2.2.2.1⟩
  | noRequest =>
      exact ⟨hf.2.2.2.1, by rw [hf.1]; exact h⟩
  | noSocketYet =>
      exact ⟨hf.2.2.2.1, by rw [hf.1]; exact h⟩

theorem maybe_return_fork (p : PoolState) (tid ospid : Nat) (s : SocketInfo)
    (h : p.pid ≠ ospid) :
    p.maybe_return_socket tid ospid s = p.reset tid ospid := by
  unfold PoolState.maybe_return_socket
  rw [if_pos (by simp [h])]

theorem maybe_return_capacity (p : PoolState) (tid ospid : Nat)
    (s : SocketInfo) (h : p.sockets.length ≤ p.max_size) :
    (p.maybe_return_socket tid ospid s).1.max_size = p.max_size ∧
    (p.maybe_return_socket tid ospid s).1.sockets.length ≤ p.max_size := by
  unfold PoolState.maybe_return_socket
  by_cases hp : (p.pid != ospid) = true
  · rw [if_pos hp]
    have hr := reset_spec p tid ospid
    exact ⟨hr.2.2.2.1, by rw [hr.2.2.1]; exact Nat.zero_le _⟩
  · rw [if_neg hp]
    by_cases hcl : s.closed = true
    · rw [if_pos hcl]
      exact ⟨rfl, h⟩
    · rw [if_neg hcl]
      by_cases heq : sockEqState s (p.getRequestState tid) = true
      · rw [if_pos heq]
        exact ⟨rfl, h⟩
      · rw [if_neg heq]
        exact return_socket_capacity p s h

theorem start_request_fields (p : PoolState) (tid : Nat) :
    (p.start_request tid).sockets = p.sockets ∧
    (p.start_request tid).max_size = p.max_size ∧
    (p.start_request tid).pool_id = p.pool_id ∧
    (p.start_request tid).pid = p.pid := by
  unfold PoolState.start_request
  cases hb : p.getRequestState tid with
  | noRequest =>
      have hf := setRequestState_fields p tid ReqState.noSocketYet
      exact ⟨hf.1, hf.2.2.2.1, hf.2.1, hf.2.2.1⟩
  | noSocketYet => exact ⟨rfl, rfl, rfl, rfl⟩
  | bound s => exact ⟨rfl, rfl, rfl, rfl⟩

theorem start_request_state (p : PoolState) (tid : Nat) :
    (p.start_request tid).getRequestState tid
      = (if p.getRequestState tid = ReqState.noRequest then ReqState.noSocketYet
         else p.getRequestState tid) := by
  unfold PoolState.start_request
  cases hb : p.getRequestState tid with
  | noRequest =>
      rw [if_pos rfl]
      exact getRequestState_set_self _ _ _
  | noSocketYet =>
      rw [if_neg (by simp)]
      exact hb
  | bound s =>
      rw [if_neg (by simp)]
      exact hb

theorem applyOp_capacity (p : PoolState) (op : PoolOp)
    (h : p.sockets.length ≤ p.max_size) :
    (applyOp p op).max_size = p.max_size ∧
    (applyOp p op).sockets.length ≤ p.max_size := by
  cases op with
  | get tid ospid now pc env =>
      have hs := get_socket_state p tid ospid now pc env
      exact ⟨hs.1, le_trans hs.2 h⟩
  | startReq tid =>
      have hf := start_request_fields p tid
      exact ⟨hf.2.1, le_trans (le_of_eq (congrArg List.length hf.1)) h⟩
  | endReq tid => exact end_request_capacity p tid h
  | maybeReturn tid ospid s => exact maybe_return_capacity p tid ospid s h
  | ret s => exact return_socket_capacity p s h
  | reset tid ospid =>
      have hr := reset_spec p tid ospid
      exact ⟨hr.2.2.2.1,
        le_trans (le_of_eq (congrArg List.length hr.2.2.1)) (Nat.zero_le _)⟩

theorem applyOps_capacity (p : PoolState) (ops : List PoolOp)
    (h : p.sockets.length ≤ p.max_size) :
    (applyOps p ops).max_size = p.max_size ∧
    (applyOps p ops).sockets.length ≤ p.max_size := by
  induction ops generalizing p with
  | nil => exact ⟨rfl, h⟩
  | cons op rest ih =>
      have h1 := applyOp_capacity p op h
      have h2 := ih (applyOp p op) (le_trans h1.2 (le_of_eq h1.1.symm))
      exact ⟨h2.1.trans h1.1, le_trans h2.2 (le_of_eq h1.1)⟩

/-! ### Concrete sample states used by witnesses -/

/-- A live connection with transport 10, generation 0. -/
def sB : SocketInfo :=
  { sock := 10, authset := [], closed := false, last_checkout := 0, pool_id := 0 }

/-- A second live connection. -/
def sC : SocketInfo :=
  { sock := 11, authset := [], closed := false, last_checkout := 0, pool_id := 0 }

/-- A third live connection. -/
def sD : SocketInfo :=
  { sock := 12, authset := [], closed := false, last_checkout := 0, pool_id := 0 }

/-- A plain pool (pid 1, generation 0, max_size 2, no TLS). -/
def pPlain : PoolState := mkPool (0, 0) 2 0 0 false 1

/-- `pPlain` with context 0 in a request bound to `sB`. -/
def pBound : PoolState :=
  { pPlain with tid_to_sock := [(0, ReqState.bound sB)] }

/-- `pPlain` after one generation bump (so `sB` is stale against it). -/
def pStale : PoolState := { pPlain with pool_id := 1 }

/-- Environment: one address candidate that connects as transport 7. -/
def envOK : ConnectEnv := { attempts := [AttemptResult.success 7], ssl_ok := true }

/-- Environment: one address candidate that connects as transport 8. -/
def envOK8 : ConnectEnv := { attempts := [AttemptResult.success 8], ssl_ok := true }

/-- Environment: the single address candidate fails with `socket.error` 5. -/
def envFail : ConnectEnv := { attempts := [AttemptResult.failure 5], ssl_ok := true }

/-- Environment: the single address candidate fails with `socket.error` 9. -/
def envFail9 : ConnectEnv := { attempts := [AttemptResult.failure 9], ssl_ok := true }

/-! ### Claims -/

/-- Claim C1, counterexample: at the concrete environment whose only address
candidate fails, `connect` surfaces the raw transport-level `socket.error`
(code 5), which is not the distinguished `ConnectionFailure` type — so the
claim that every connection-establishment failure surfaces a
`ConnectionError` is false on this code. -/
theorem C1_counterexample :
    pPlain.connect envFail 0 = Except.error (PoolError.socketError 5) ∧
    PoolError.isConnectionFailure (PoolError.socketError 5) = false :=
  ⟨rfl, rfl⟩

/-- Claim C1 (amended): a failure of `create_connection` is surfaced by
`connect` — and by `get_socket` on the fresh-connect path — as the raw
transport `socket.error`, unmodified; only a TLS-handshake failure after a
successful TCP connect surfaces the distinguished `ConnectionFailure`. -/
theorem C1_connect_error_surface (p : PoolState) (env : ConnectEnv)
    (now : Rat) :
    (∀ e, create_connection env.attempts = Except.error e →
       p.connect env now = Except.error e ∧
       ∃ m, e = PoolError.socketError m) ∧
    (∀ sock, create_connection env.attempts = Except.ok sock →
       p.use_ssl = true → env.ssl_ok = false →
       p.connect env now = Except.error (PoolError.connectionFailure 1)) ∧
    (∀ tid ospid e, p.pid = ospid →
       p.getRequestState tid = ReqState.noRequest → p.sockets = [] →
       create_connection env.attempts = Except.error e →
       p.get_socket tid ospid now false env = (Except.error e, p, false, [])) := by
  refine ⟨?_, ?_, ?_⟩
  · intro e he
    exact ⟨connect_propagates_create_error p env now e he,
      createConnectionLoop_error env.attempts none e he⟩
  · intro sock hok hssl hsslok
    unfold PoolState.connect
    rw [hok, hssl, hsslok]
    rfl
  · intro tid ospid e hpid hnr hnil hce
    rw [get_socket_nofork p tid ospid now false env hpid]
    unfold PoolState.getSocketMain
    rw [hnr]
    simp only []
    unfold PoolState.getNonRequest
    rw [hnil]
    simp only []
    rw [connect_propagates_create_error p env now e hce]

/-- Witness for C1's amended theorem at the concrete failing environment. -/
theorem C1_witness :
    (pPlain.connect envFail 0 = Except.error (PoolError.socketError 5) ∧
     ∃ m, PoolError.socketError 5 = PoolError.socketError m) ∧
    pPlain.get_socket 0 1 0 false envFail
      = (Except.error (PoolError.socketError 5), pPlain, false, []) :=
  ⟨(C1_connect_error_surface pPlain envFail 0).1 (PoolError.socketError 5) rfl,
   (C1_connect_error_surface pPlain envFail 0).2.2 0 1
     (PoolError.socketError 5) rfl rfl rfl rfl⟩

/-- Claim C2, counterexample: `end_request` touches the idle cache with no
pid check.  Concretely: `pBound` has stored pid 1; an observer process id 2
differs, yet `end_request` (which never consults `os.getpid`) caches the
bound connection without resetting — the generation stays 0 and the stored
pid stays 1. -/
theorem C2_counterexample :
    (pBound.end_request 0).1.sockets = [sB] ∧
    (pBound.end_request 0).1.pool_id = 0 ∧
    (pBound.end_request 0).1.pid = 1 ∧ (1 : Nat) ≠ 2 :=
  ⟨rfl, rfl, rfl, by decide⟩

/-- Claim C2 (amended): `get_socket` and `maybe_return_socket` perform the
fork check before touching the idle cache — when the observed pid differs
from the stored pid, `get_socket` first runs `reset` and continues on the
reset state, and `maybe_return_socket` only resets — but `end_request`
performs no pid check at all: it runs identically whatever the observed pid,
leaving generation and stored pid unchanged. -/
theorem C2_fork_check (p : PoolState) (tid ospid : Nat) (now : Rat)
    (pc : Bool) (env : ConnectEnv) (s : SocketInfo) (h : p.pid ≠ ospid) :
    p.get_socket tid ospid now pc env
      = (p.reset tid ospid).1.getSocketMain tid ospid now pc env
          (p.reset tid ospid).2 ∧
    p.maybe_return_socket tid ospid s = p.reset tid ospid ∧
    ((p.end_request tid).1.pool_id = p.pool_id ∧
     (p.end_request tid).1.pid = p.pid) := by
  refine ⟨get_socket_fork p tid ospid now pc env h,
    maybe_return_fork p tid ospid s h, ?_, ?_⟩
  · unfold PoolState.end_request
    have hf := setRequestState_fields p tid ReqState.noRequest
    cases hb : p.getRequestState tid with
    | bound s0 =>
        simp only []
        unfold PoolState.return_socket
        by_cases hl : (p.setRequestState tid ReqState.noRequest).sockets.length
            < (p.setRequestState tid ReqState.noRequest).max_size
        · rw [if_pos hl]
          exact hf.2.1
        · rw [if_neg hl]
          exact hf.2.1
    | noRequest => exact hf.2.1
    | noSocketYet => exact hf.2.1
  · unfold PoolState.end_request
    have hf := setRequestState_fields p tid ReqState.noRequest
    cases hb : p.getRequestState tid with
    | bound s0 =>
        simp only []
        unfold PoolState.return_socket
        by_cases hl : (p.setRequestState tid ReqState.noRequest).sockets.length
            < (p.setRequestState tid ReqState.noRequest).max_size
        · rw [if_pos hl]
          exact hf.2.2.1
        · rw [if_neg hl]
          exact hf.2.2.1
    | noRequest => exact hf.2.2.1
    | noSocketYet => exact hf.2.2.1

/-- Witness for C2's amended theorem: in a forked process (stored pid 1,
observed pid 2) `maybe_return_socket` only resets and `end_request` leaves
generation and pid unchanged. -/
theorem C2_witness :
    pBound.maybe_return_socket 0 2 sC = pBound.reset 0 2 ∧
    ((pBound.end_request 0).1.pool_id = pBound.pool_id ∧
     (pBound.end_request 0).1.pid = pBound.pid) :=
  ⟨(C2_fork_check pBound 0 2 0 false envOK sC (by decide)).2.1,
   (C2_fork_check pBound 0 2 0 false envOK sC (by decide)).2.2⟩

/-- Claim C3: for a pool with `max_size = N`, every operation sequence keeps
the idle cache at ≤ N connections (N is also preserved); a connection
returned when the cache is at or above capacity is closed, not cached; with
N = 0 a returned connection is always closed. -/
theorem C3_capacity (p : PoolState) (ops : List PoolOp) (s : SocketInfo)
    (h : p.sockets.length ≤ p.max_size) :
    (applyOps p ops).max_size = p.max_size ∧
    (applyOps p ops).sockets.length ≤ p.max_size ∧
    (p.max_size ≤ p.sockets.length → p.return_socket s = (p, [s.close])) ∧
    (p.max_size = 0 → p.return_socket s = (p, [s.close])) := by
  have hc := applyOps_capacity p ops h
  refine ⟨hc.1, hc.2, ?_, ?_⟩
  · intro hfull
    unfold PoolState.return_socket
    rw [if_neg (Nat.not_lt.mpr hfull)]
  · intro hzero
    unfold PoolState.return_socket
    rw [if_neg (by rw [hzero]; exact Nat.not_lt.mpr (Nat.zero_le _))]

/-- Witness for C3: a pool with `max_size = 1` receives three returned
connections; at most one is cached, and a return against the full cache
closes the connection. -/
theorem C3_witness :
    (applyOps { pPlain with max_size := 1 }
        [PoolOp.ret sB, PoolOp.ret sC, PoolOp.ret sD]).sockets.length ≤ 1 ∧
    ({ pPlain with max_size := 1, sockets := [sB] } : PoolState).return_socket
        sC = ({ pPlain with max_size := 1, sockets := [sB] }, [sC.close]) :=
  ⟨(C3_capacity { pPlain with max_size := 1 }
      [PoolOp.ret sB, PoolOp.ret sC, PoolOp.ret sD] sB (by decide)).2.1,
   (C3_capacity ({ pPlain with max_size := 1, sockets := [sB] } : PoolState)
      [] sC (by decide)).2.2.1 (by decide)⟩

/-- The environment offers only transports distinct from `s.sock` (a fresh
OS socket is a different object/descriptor than a live one). -/
def freshFor (env : ConnectEnv) (s : SocketInfo) : Bool :=
  env.attempts.all fun a =>
    match a with
    | AttemptResult.success sock => sock != s.sock
    | AttemptResult.failure _ => true

theorem freshFor_spec (env : ConnectEnv) (s : SocketInfo) (sock : Nat)
    (hf : freshFor env s = true)
    (hm : AttemptResult.success sock ∈ env.attempts) : sock ≠ s.sock := by
  have := List.all_eq_true.mp hf _ hm
  simpa using this

theorem create_connection_ok_mem (attempts : List AttemptResult)
    (acc : Option Nat) (sock : Nat)
    (h : createConnectionLoop attempts acc = Except.ok sock) :
    AttemptResult.success sock ∈ attempts := by
  induction attempts generalizing acc with
  | nil => cases acc <;> simp [createConnectionLoop] at h
  | cons a rest ih =>
      cases a with
      | success s0 =>
          simp [createConnectionLoop] at h
          subst h
          exact List.mem_cons_self _ _
      | failure m =>
          simp only [createConnectionLoop] at h
          exact List.mem_cons_of_mem _ (ih (some m) h)

/-- Claim C4: every Connection handed out by `get_socket` carries the pool's
current generation; and a connection whose generation predates the pool's
(obtained before a `reset`) is never reused by `_check` — it is closed and a
different, newly connected socket with the current generation is supplied. -/
theorem C4_generation :
    (∀ (p : PoolState) (tid ospid : Nat) (now : Rat) (pc : Bool)
        (env : ConnectEnv) (si : SocketInfo) (p2 : PoolState) (pr : Bool)
        (cl : List SocketInfo),
        p.get_socket tid ospid now pc env = (Except.ok si, p2, pr, cl) →
        si.pool_id = p2.pool_id) ∧
    (∀ (p : PoolState) (tid ospid : Nat) (s : SocketInfo) (now : Rat)
        (pc : Bool) (env : ConnectEnv) (si : SocketInfo) (p2 : PoolState)
        (pr : Bool) (cl : List SocketInfo),
        s.pool_id ≠ p.pool_id → freshFor env s = true →
        p.check tid ospid s now pc env = (Except.ok si, p2, pr, cl) →
        si.sock ≠ s.sock ∧ si.pool_id = p2.pool_id ∧ s.close ∈ cl) := by
  constructor
  · intro p tid ospid now pc env si p2 pr cl h
    exact (get_socket_ok p tid ospid now pc env si p2 pr cl h).1
  · intro p tid ospid s now pc env si p2 pr cl hgen hfresh h
    obtain ⟨h1, h2, h3⟩ := check_ok p tid ospid s now pc env si p2 pr cl h
    rcases h3 with h3 | ⟨hcl, hlc, hmem, sock, hsc, hsock⟩
    · rw [h3] at h2
      exact absurd h2 hgen
    · have hne := freshFor_spec env s sock hfresh
        (create_connection_ok_mem env.attempts none sock hsc)
      refine ⟨by rw [hsock]; exact hne, ?_, hmem⟩
      rw [h1]
      exact h2

/-- Witness for C4: a fresh `get` hands out a generation-0 connection on a
generation-0 pool, and `_check` on a stale (generation-0) connection against
a generation-1 pool supplies a different, newly connected generation-1
socket and closes the stale one. -/
theorem C4_witness :
    (SocketInfo.mkNew 7 0 0).pool_id = pPlain.pool_id ∧
    ((SocketInfo.mkNew 8 1 0).sock ≠ sB.sock ∧
     (SocketInfo.mkNew 8 1 0).pool_id = pStale.pool_id ∧
     sB.close ∈ [sB.close]) :=
  ⟨C4_generation.1 pPlain 0 1 0 false envOK (SocketInfo.mkNew 7 0 0) pPlain
      false [] rfl,
   C4_generation.2 pStale 0 1 sB 0 false envOK8 (SocketInfo.mkNew 8 1 0)
      pStale false [sB.close] (by decide) (by decide) rfl⟩

theorem get_socket_bound_keep (p : PoolState) (tid ospid : Nat) (now : Rat)
    (pc : Bool) (env : ConnectEnv) (s : SocketInfo)
    (hpid : p.pid = ospid) (hb : p.getRequestState tid = ReqState.bound s)
    (hgen : p.pool_id = s.pool_id)
    (hkeep : ¬(now - s.last_checkout > 1 ∧ pc = true)) :
    p.get_socket tid ospid now pc env
      = (Except.ok { s with last_checkout := now },
         p.setRequestState tid
           (ReqState.bound { s with last_checkout := now }),
         decide (now - s.last_checkout > 1), []) := by
  rw [get_socket_nofork p tid ospid now pc env hpid]
  unfold PoolState.getSocketMain
  rw [hb]
  simp only []
  rw [check_keep p tid ospid s now pc env hgen hkeep]
  simp [handleCheckedBound]

theorem get_socket_bound_probed (p : PoolState) (tid ospid : Nat) (now : Rat)
    (pc : Bool) (env : ConnectEnv) (s : SocketInfo)
    (hpid : p.pid = ospid) (hb : p.getRequestState tid = ReqState.bound s) :
    (p.get_socket tid ospid now pc env).2.2.1
      = (decide (p.pool_id = s.pool_id) &&
         decide (now - s.last_checkout > 1)) := by
  rw [get_socket_nofork p tid ospid now pc env hpid]
  unfold PoolState.getSocketMain
  rw [hb]
  simp only []
  have hpr := check_probed p tid ospid s now pc env
  rcases hres : p.check tid ospid s now pc env with ⟨r, q, b, c⟩
  rw [hres] at hpr
  simp only [] at hpr
  cases r <;> simp only [handleCheckedBound] <;> exact hpr

/-- Claim C5: in `_check`, the non-destructive peer-closed probe runs if and
only if the generation matches and strictly more than 1 second has elapsed
since `last_checkout`; consequently, for a request-bound connection, a `get`
at `t1` followed by a `get` at `t2` probes on the second call exactly when
`t2 - t1 > 1`. -/
theorem C5_staleness_throttle :
    (∀ (p : PoolState) (tid ospid : Nat) (s : SocketInfo) (now : Rat)
        (pc : Bool) (env : ConnectEnv),
        (p.check tid ospid s now pc env).2.2.1
          = (decide (p.pool_id = s.pool_id) &&
             decide (now - s.last_checkout > 1))) ∧
    (∀ (p : PoolState) (tid ospid : Nat) (s : SocketInfo) (t1 t2 : Rat)
        (pc2 : Bool) (env1 env2 : ConnectEnv),
        p.pid = ospid → p.getRequestState tid = ReqState.bound s →
        p.pool_id = s.pool_id →
        (p.get_socket tid ospid t1 false env1).2.2.1
            = decide (t1 - s.last_checkout > 1) ∧
        ((p.get_socket tid ospid t1 false env1).2.1.get_socket tid ospid t2
            pc2 env2).2.2.1 = decide (t2 - t1 > 1)) := by
  constructor
  · intro p tid ospid s now pc env
    exact check_probed p tid ospid s now pc env
  · intro p tid ospid s t1 t2 pc2 env1 env2 hpid hb hgen
    have hk := get_socket_bound_keep p tid ospid t1 false env1 s hpid hb hgen
      (by simp)
    constructor
    · rw [hk]
    · rw [hk]
      simp only []
      have hf := setRequestState_fields p tid
        (ReqState.bound { s with last_checkout := t1 })
      have hb2 := getRequestState_set_self p tid
        (ReqState.bound { s with last_checkout := t1 })
      rw [get_socket_bound_probed _ tid ospid t2 pc2 env2 _
        (hf.2.2.1.trans hpid) hb2]
      rw [hf.2.1]
      simp [hgen]

/-- Witness for C5: with the bound connection last checked out at 1/2, a
second `get` at 5/4 (3/4 of a second later) does not probe, while a second
`get` at 2 (3/2 seconds later) does. -/
theorem C5_witness :
    (((pBound.get_socket 0 1 (1/2) false envOK).2.1.get_socket 0 1 (5/4) true
        envOK).2.2.1 = decide ((5/4 : Rat) - (1/2 : Rat) > 1) ∧
      decide ((5/4 : Rat) - (1/2 : Rat) > 1) = false) ∧
    (((pBound.get_socket 0 1 (1/2) false envOK).2.1.get_socket 0 1 2 true
        envOK).2.2.1 = decide ((2 : Rat) - (1/2 : Rat) > 1) ∧
      decide ((2 : Rat) - (1/2 : Rat) > 1) = true) :=
  ⟨⟨(C5_staleness_throttle.2 pBound 0 1 sB (1/2) (5/4) true envOK envOK rfl
      rfl rfl).2,
    by simp only [decide_eq_false_iff_not]; norm_num⟩,
   ⟨(C5_staleness_throttle.2 pBound 0 1 sB (1/2) 2 true envOK envOK rfl rfl
      rfl).2,
    by simp only [decide_eq_true_eq]; norm_num⟩⟩

/-- Claim C6: when `_check` must replace a connection and the replacement
`connect` fails with a transport error (`socket.error`), the whole pool is
reset — generation bumped, idle set emptied and its members closed — and the
very same error is re-raised unmodified. -/
theorem C6_reset_on_reconnect_failure (p : PoolState) (tid ospid : Nat)
    (s : SocketInfo) (now : Rat) (pc : Bool) (env : ConnectEnv) (m : Nat)
    (hneed : p.pool_id ≠ s.pool_id ∨ (now - s.last_checkout > 1 ∧ pc = true))
    (hfail : p.connect env now = Except.error (PoolError.socketError m)) :
    (p.check tid ospid s now pc env).1
        = Except.error (PoolError.socketError m) ∧
    (p.check tid ospid s now pc env).2.1 = (p.reset tid ospid).1 ∧
    (p.check tid ospid s now pc env).2.2.2
        = [s.close] ++ (p.reset tid ospid).2 ∧
    (p.reset tid ospid).1.pool_id = p.pool_id + 1 ∧
    (p.reset tid ospid).1.sockets = [] ∧
    (p.reset tid ospid).2 = resetClosed (p.getRequestState tid) p.sockets := by
  have hr := reset_spec p tid ospid
  unfold PoolState.check
  by_cases hg : (p.pool_id != s.pool_id) = true
  · rw [if_pos hg, checkReplace_sockerr p tid ospid now env [s.close] false m
      hfail]
    exact ⟨rfl, rfl, rfl, hr.1, hr.2.2.1, hr.2.2.2.2.2.1⟩
  · have hgen : p.pool_id = s.pool_id := by simpa using hg
    rcases hneed with hne | ⟨ht, hpc⟩
    · exact absurd hgen hne
    · rw [if_neg hg, if_pos ht, hpc, if_pos rfl,
        checkReplace_sockerr p tid ospid now env [s.close] true m hfail]
      exact ⟨rfl, rfl, rfl, hr.1, hr.2.2.1, hr.2.2.2.2.2.1⟩

/-- Witness for C6: a stale connection against a generation-1 pool whose
reconnect attempt fails with `socket.error` 9 — the error is re-raised
as-is, the resulting state is the reset state, and the generation is
bumped. -/
theorem C6_witness :
    (pStale.check 0 1 sB 0 false envFail9).1
        = Except.error (PoolError.socketError 9) ∧
    (pStale.check 0 1 sB 0 false envFail9).2.1 = (pStale.reset 0 1).1 ∧
    (pStale.reset 0 1).1.pool_id = pStale.pool_id + 1 :=
  ⟨(C6_reset_on_reconnect_failure pStale 0 1 sB 0 false envFail9 9
      (Or.inl (by decide)) rfl).1,
   (C6_reset_on_reconnect_failure pStale 0 1 sB 0 false envFail9 9
      (Or.inl (by decide)) rfl).2.1,
   (C6_reset_on_reconnect_failure pStale 0 1 sB 0 false envFail9 9
      (Or.inl (by decide)) rfl).2.2.2.1⟩

/-- A pool with one idle connection and two contexts in requests. -/
def pTwo : PoolState :=
  { pPlain with sockets := [sC], tid_to_sock := [(0, ReqState.bound sB), (1, ReqState.bound sD)] }

/-- A pool whose context 0 reserved a request but has no socket yet. -/
def pReserved : PoolState :=
  { pPlain with tid_to_sock := [(0, ReqState.noSocketYet)] }

/-- Claim C7: `reset` bumps the generation, refreshes the stored pid, closes
the calling context's bound request connection and every member of the
swapped-out idle set (and nothing else), empties the idle set, downgrades the
calling context's request state to reserved-no-socket-yet when it was in a
request, and leaves every other context's request state untouched. -/
theorem C7_reset_effects (p : PoolState) (tid ospid : Nat) :
    (p.reset tid ospid).1.pool_id = p.pool_id + 1 ∧
    (p.reset tid ospid).1.pid = ospid ∧
    (p.reset tid ospid).1.sockets = [] ∧
    (p.reset tid ospid).2 = resetClosed (p.getRequestState tid) p.sockets ∧
    (p.reset tid ospid).1.getRequestState tid
        = resetReqState (p.getRequestState tid) ∧
    ∀ tid2, tid2 ≠ tid →
      (p.reset tid ospid).1.getRequestState tid2 = p.getRequestState tid2 := by
  have h := reset_spec p tid ospid
  exact ⟨h.1, h.2.1, h.2.2.1, h.2.2.2.2.2.1, h.2.2.2.2.2.2.1,
    h.2.2.2.2.2.2.2⟩

/-- Witness for C7 on a pool with a bound request in context 0, another in
context 1, one idle connection, reset called from context 0 in process 2. -/
theorem C7_witness :
    ((pTwo.reset 0 2).1.pool_id = pTwo.pool_id + 1 ∧
     (pTwo.reset 0 2).1.pid = 2 ∧
     (pTwo.reset 0 2).1.sockets = [] ∧
     (pTwo.reset 0 2).2 = resetClosed (pTwo.getRequestState 0) pTwo.sockets ∧
     (pTwo.reset 0 2).1.getRequestState 0
        = resetReqState (pTwo.getRequestState 0)) ∧
    (pTwo.reset 0 2).1.getRequestState 1 = pTwo.getRequestState 1 :=
  ⟨⟨(C7_reset_effects pTwo 0 2).1, (C7_reset_effects pTwo 0 2).2.1,
    (C7_reset_effects pTwo 0 2).2.2.1, (C7_reset_effects pTwo 0 2).2.2.2.1,
    (C7_reset_effects pTwo 0 2).2.2.2.2.1⟩,
   (C7_reset_effects pTwo 0 2).2.2.2.2.2 1 (by decide)⟩

/-- Claim C8: request affinity.  `start_request` is a no-op when already in
a request and allocates no connection; within a request, a non-stale `get`
returns the same bound connection (same transport, freshly stamped) and
keeps it bound; and whenever a request-mode `get` succeeds — including when
the bound connection was stale and transparently replaced — the returned
connection becomes (or stays) the context's binding, so subsequent `get`s
return it. -/
theorem C8_request_affinity :
    (∀ (p : PoolState) (tid : Nat),
        p.getRequestState tid ≠ ReqState.noRequest →
        p.start_request tid = p) ∧
    (∀ (p : PoolState) (tid : Nat),
        (p.start_request tid).sockets = p.sockets ∧
        (p.start_request tid).getRequestState tid
          = (if p.getRequestState tid = ReqState.noRequest
             then ReqState.noSocketYet else p.getRequestState tid)) ∧
    (∀ (p : PoolState) (tid ospid : Nat) (now : Rat) (pc : Bool)
        (env : ConnectEnv) (s : SocketInfo),
        p.pid = ospid → p.getRequestState tid = ReqState.bound s →
        p.pool_id = s.pool_id → ¬(now - s.last_checkout > 1 ∧ pc = true) →
        (p.get_socket tid ospid now pc env).1
            = Except.ok { s with last_checkout := now } ∧
        (p.get_socket tid ospid now pc env).2.1.getRequestState tid
            = ReqState.bound { s with last_checkout := now }) ∧
    (∀ (p : PoolState) (tid ospid : Nat) (now : Rat) (pc : Bool)
        (env : ConnectEnv) (si : SocketInfo) (p2 : PoolState) (pr : Bool)
        (cl : List SocketInfo),
        p.pid = ospid → p.getRequestState tid ≠ ReqState.noRequest →
        p.get_socket tid ospid now pc env = (Except.ok si, p2, pr, cl) →
        p2.getRequestState tid = ReqState.bound si) := by
  refine ⟨?_, ?_, ?_, ?_⟩
  · intro p tid h
    unfold PoolState.start_request
    cases hb : p.getRequestState tid with
    | noRequest => exact absurd hb h
    | noSocketYet => rfl
    | bound s => rfl
  · intro p tid
    exact ⟨(start_request_fields p tid).1, start_request_state p tid⟩
  · intro p tid ospid now pc env s hpid hb hgen hkeep
    rw [get_socket_bound_keep p tid ospid now pc env s hpid hb hgen hkeep]
    exact ⟨rfl, getRequestState_set_self _ _ _⟩
  · intro p tid ospid now pc env si p2 pr cl hpid hnr h
    rw [get_socket_nofork p tid ospid now pc env hpid] at h
    exact (getSocketMain_ok p tid ospid now pc env [] si p2 pr cl h).2.2 hnr

/-- Witness for C8: `start_request` is a no-op on the already-bound pool;
the first `get` of a reserved request binds the new connection; a non-stale
`get` on the bound pool returns the bound connection re-stamped. -/
theorem C8_witness :
    pBound.start_request 0 = pBound ∧
    (pReserved.setRequestState 0
        (ReqState.bound { SocketInfo.mkNew 7 0 0 with
          last_checkout := 0 })).getRequestState 0
      = ReqState.bound { SocketInfo.mkNew 7 0 0 with last_checkout := 0 } ∧
    (pBound.get_socket 0 1 0 false envOK).1
      = Except.ok { sB with last_checkout := 0 } :=
  ⟨C8_request_affinity.1 pBound 0
      (by simp [show pBound.getRequestState 0 = ReqState.bound sB from rfl]),
   C8_request_affinity.2.2.2 pReserved 0 1 0 false envOK
      { SocketInfo.mkNew 7 0 0 with last_checkout := 0 }
      (pReserved.setRequestState 0
        (ReqState.bound { SocketInfo.mkNew 7 0 0 with last_checkout := 0 }))
      false [] rfl
      (by simp [show pReserved.getRequestState 0 = ReqState.noSocketYet from
        rfl])
      rfl,
   (C8_request_affinity.2.2.1 pBound 0 1 0 false envOK sB rfl rfl rfl
      (by simp)).1⟩

/-- Claim C9: `maybe_return_socket` only resets when the pid changed; is a
no-op on an already-closed connection; is a no-op on the context's bound
request connection; otherwise returns the connection to the idle cache via
`_return_socket`, which closes it when the cache is at capacity. -/
theorem C9_maybe_return (p : PoolState) (tid ospid : Nat) (s : SocketInfo) :
    (p.pid ≠ ospid → p.maybe_return_socket tid ospid s = p.reset tid ospid) ∧
    (p.pid = ospid → s.closed = true →
        p.maybe_return_socket tid ospid s = (p, [])) ∧
    (p.pid = ospid → s.closed = false →
        sockEqState s (p.getRequestState tid) = true →
        p.maybe_return_socket tid ospid s = (p, [])) ∧
    (p.pid = ospid → s.closed = false →
        sockEqState s (p.getRequestState tid) = false →
        p.maybe_return_socket tid ospid s = p.return_socket s) ∧
    (p.max_size ≤ p.sockets.length → p.return_socket s = (p, [s.close])) := by
  refine ⟨fun h => maybe_return_fork p tid ospid s h, ?_, ?_, ?_, ?_⟩
  · intro hp hc
    unfold PoolState.maybe_return_socket
    rw [if_neg (by simp [hp]), if_pos hc]
  · intro hp hc he
    unfold PoolState.maybe_return_socket
    rw [if_neg (by simp [hp]), if_neg (by simp [hc]), if_pos he]
  · intro hp hc he
    unfold PoolState.maybe_return_socket
    rw [if_neg (by simp [hp]), if_neg (by simp [hc]), if_neg (by simp [he])]
  · intro hfull
    unfold PoolState.return_socket
    rw [if_neg (Nat.not_lt.mpr hfull)]

/-- Witness for C9: the four behaviors at concrete inputs — forked process
(reset only), closed connection (no-op), the request-bound connection
(no-op), and an unrelated connection (returned via `_return_socket`). -/
theorem C9_witness :
    pBound.maybe_return_socket 0 2 sD = pBound.reset 0 2 ∧
    pBound.maybe_return_socket 0 1 { sC with closed := true } = (pBound, []) ∧
    pBound.maybe_return_socket 0 1 sB = (pBound, []) ∧
    pBound.maybe_return_socket 0 1 sC = pBound.return_socket sC :=
  ⟨(C9_maybe_return pBound 0 2 sD).1 (by decide),
   (C9_maybe_return pBound 0 1 { sC with closed := true }).2.1 rfl rfl,
   (C9_maybe_return pBound 0 1 sB).2.2.1 rfl rfl rfl,
   (C9_maybe_return pBound 0 1 sC).2.2.2.1 rfl rfl rfl⟩

/-- Claim C10: a real `SocketInfo` never compares equal (under
`SocketInfo.__eq__`) to the sentinels `NO_REQUEST = None` and
`NO_SOCKET_YET = -1`; it compares equal exactly to a value carrying an equal
`sock` attribute; hence over the values that can inhabit a request state,
the `not in (NO_REQUEST, NO_SOCKET_YET)` membership test holds exactly for
real bound connections. -/
theorem C10_sentinel_eq (s : SocketInfo) (v : PyVal) :
    sockinfoEq s NO_REQUEST = false ∧
    sockinfoEq s NO_SOCKET_YET = false ∧
    inSentinels (PyVal.pySock s) = false ∧
    (sockinfoEq s v = true ↔
      ∃ s2, v = PyVal.pySock s2 ∧ s.sock = s2.sock) ∧
    ((v = NO_REQUEST ∨ v = NO_SOCKET_YET ∨ ∃ s2, v = PyVal.pySock s2) →
      (inSentinels v = false ↔ ∃ s2, v = PyVal.pySock s2)) := by
  refine ⟨rfl, rfl, rfl, ?_, ?_⟩
  · cases v with
    | pyNone => simp [sockinfoEq, hasSockAttr]
    | pyInt n => simp [sockinfoEq, hasSockAttr]
    | pySock s2 => simp [sockinfoEq, hasSockAttr]
  · intro hv
    cases v with
    | pyNone => simp [inSentinels, pyEq, NO_REQUEST, NO_SOCKET_YET]
    | pyInt n =>
        rcases hv with h | h | ⟨s2, h⟩
        · exact absurd h (by simp [NO_REQUEST])
        · simp only [NO_SOCKET_YET, PyVal.pyInt.injEq] at h
          subst h
          simp [inSentinels, pyEq, NO_REQUEST, NO_SOCKET_YET]
        · exact absurd h (by simp)
    | pySock s2 =>
        simp [inSentinels, pyEq, sockinfoEq, hasSockAttr, NO_REQUEST,
          NO_SOCKET_YET]

/-- Witness for C10 at concrete connections. -/
theorem C10_witness :
    sockinfoEq sB NO_REQUEST = false ∧
    sockinfoEq sB NO_SOCKET_YET = false ∧
    inSentinels (PyVal.pySock sB) = false ∧
    (inSentinels (PyVal.pySock sC) = false ↔
      ∃ s2, PyVal.pySock sC = PyVal.pySock s2) :=
  ⟨(C10_sentinel_eq sB (PyVal.pySock sC)).1,
   (C10_sentinel_eq sB (PyVal.pySock sC)).2.1,
   (C10_sentinel_eq sB (PyVal.pySock sC)).2.2.1,
   (C10_sentinel_eq sB (PyVal.pySock sC)).2.2.2.2
     (Or.inr (Or.inr ⟨sC, rfl⟩))⟩

end PyPool
